import Mathlib

/-
Verification of the AakashVaani backend core (src/backend/server.py)
against its natural-language specification.

The embedding models the pure content of the pipeline:
rational numbers stand for Python floats (the source computes with
exact arithmetic on the inputs considered here), association lists
stand for JSON dictionaries, and Option marks absent fields.
-/

unseal Rat.add Rat.sub Rat.mul Rat.inv

/- Constants, server.py lines 26-30. -/

def DEFAULT_RADIUS_KM : ℚ := 2

def MAX_RADIUS_KM : ℚ := 10

def RATE_LIMIT_CALLS : ℕ := 100

def RATE_LIMIT_PERIOD : ℚ := 3600

/- Python string helpers used by the source (ASCII behaviour).  They
are written by structural recursion over the character list so that
concrete inputs evaluate inside the kernel. -/

/-- Python str.lower() on ASCII text. -/
def pyLower (s : String) : String := ⟨s.data.map Char.toLower⟩

/-- Python str.strip(): drop leading and trailing whitespace. -/
def pyStrip (s : String) : String :=
  ⟨((s.data.dropWhile Char.isWhitespace).reverse.dropWhile Char.isWhitespace).reverse⟩

/-- Python str.title() on ASCII text: an alphabetic character is
upper-cased when the previous character is not alphabetic and
lower-cased otherwise; other characters pass through. -/
def titleChars : Bool → List Char → List Char
  | _, [] => []
  | prevAlpha, c :: cs =>
    if c.isAlpha then
      (if prevAlpha then c.toLower else c.toUpper) :: titleChars true cs
    else
      c :: titleChars false cs

def pyTitle (s : String) : String := ⟨titleChars false s.data⟩

/- convert_query_to_amenity, server.py lines 98-143. -/

/-- The fixed lookup table of server.py lines 101-142. -/
def amenityMapping : List (String × String) :=
  [("hospital", "hospital"), ("clinic", "clinic"), ("doctor", "doctors"),
   ("atm", "atm"), ("restaurant", "restaurant"), ("school", "school"),
   ("college", "college"), ("university", "university"), ("bank", "bank"),
   ("pharmacy", "pharmacy"), ("chemist", "pharmacy"), ("bus", "bus_station"),
   ("bus stop", "bus_stop"), ("police", "police"), ("hotel", "hotel"),
   ("cafe", "cafe"), ("park", "park"), ("garden", "garden"), ("fuel", "fuel"),
   ("petrol", "fuel"), ("gas station", "fuel"), ("temple", "place_of_worship"),
   ("church", "place_of_worship"), ("mosque", "place_of_worship"),
   ("supermarket", "supermarket"), ("grocery", "supermarket"), ("mall", "mall"),
   ("market", "marketplace"), ("cinema", "cinema"), ("theater", "theatre"),
   ("library", "library"), ("post office", "post_office"), ("gym", "gym"),
   ("fitness", "fitness_centre"), ("airport", "aeroway=terminal"),
   ("bar", "bar"), ("pub", "pub"), ("station", "station"),
   ("train", "station"), ("fire", "fire_station")]

/-- server.py line 143: mapping.get(query.lower().strip(), query.lower().strip()). -/
def convert_query_to_amenity (query : String) : String :=
  (amenityMapping.lookup (pyStrip (pyLower query))).getD (pyStrip (pyLower query))

/- Rate limiting, server.py lines 171-194.  check_rate_limit reads and
writes only the entry call_counts[client_ip] of the one client it is
called for, so the state is modelled per identity: None when the
identity has no entry yet. -/

structure RateEntry where
  count : ℕ
  resetAt : ℚ
deriving DecidableEq

/-- server.py lines 174-194, for a single client identity.  Returns the
admission boolean together with the identity's entry after the call. -/
def check_rate_limit (now : ℚ) (entry : Option RateEntry) : Bool × Option RateEntry :=
  match entry with
  | none => (true, some ⟨1, now + RATE_LIMIT_PERIOD⟩)
  | some client =>
    if now > client.resetAt then
      (true, some ⟨1, now + RATE_LIMIT_PERIOD⟩)
    else if client.count ≥ RATE_LIMIT_CALLS then
      (false, some client)
    else
      (true, some ⟨client.count + 1, client.resetAt⟩)

/-- A sequence of check_rate_limit calls for one identity at the given
event-loop times, threading the stored entry; returns the admission
results in order. -/
def runCalls : List ℚ → Option RateEntry → List Bool
  | [], _ => []
  | t :: ts, st =>
    (check_rate_limit t st).1 :: runCalls ts (check_rate_limit t st).2

/- The nearby-search normalization, server.py lines 398-434. -/

/-- The origin of a nearby search (request.lat, request.lng). -/
structure GeoPoint where
  lat : ℚ
  lng : ℚ
deriving DecidableEq

/-- The center sub-object of an Overpass element ("out center" geometry);
either coordinate may be absent. -/
structure OsmCenter where
  lat : Option ℚ
  lon : Option ℚ
deriving DecidableEq

/-- An upstream Overpass element, restricted to the fields server.py
reads: type, id, lat, lon, center, tags. -/
structure OsmElement where
  type : String
  id : Option ℕ
  lat : Option ℚ
  lon : Option ℚ
  center : Option OsmCenter
  tags : List (String × String)
deriving DecidableEq

/-- The poi dictionary built at server.py lines 416-433. -/
structure LocationResult where
  id : String
  name : String
  type : String
  lat : ℚ
  lng : ℚ
  distance : Option ℚ
  address : List (String × Option String)
  details : List (String × Option String)
deriving DecidableEq

/-- Integer square root by the binary digit method, written with a fuel
argument so it is structurally recursive and evaluates inside the
kernel; isqrt_spec below is its characterisation. -/
def isqrtAux : ℕ → ℕ → ℕ
  | 0, _ => 0
  | fuel + 1, n =>
    if n = 0 then 0
    else
      let r := isqrtAux fuel (n / 4)
      if (2 * r + 1) ^ 2 ≤ n then 2 * r + 1 else 2 * r

def isqrt (n : ℕ) : ℕ := isqrtAux n n

/-- Exact value of round(q ** 0.5 * 111, 2) from server.py lines 413 and
422: the integer nearest to 11100 * sqrt q, divided by 100, computed
with the integer square root (for q = num/den ≥ 0, the nearest integer
is floor((sqrt(22200^2 * num * den) + den) / (2 * den))).  Python's
round breaks exact ties to even; an exact tie would need 22200 * sqrt q
to be an odd integer, which does not arise in any property stated
below. -/
def sqrt111Round2 (q : ℚ) : ℚ :=
  (((isqrt (492840000 * q.num.toNat * q.den) + q.den) / (2 * q.den) : ℕ) : ℚ) / 100

/-- Coordinate selection, server.py lines 401-411: a node uses its own
lat/lon, any other element uses its center's lat/lon; if the chosen
pair is incomplete the element yields no coordinate. -/
def elemCoord (e : OsmElement) : Option (ℚ × ℚ) :=
  if e.type = "node" then
    match e.lat, e.lon with
    | some lat, some lon => some (lat, lon)
    | _, _ => none
  else
    match e.center with
    | some c =>
      match c.lat, c.lon with
      | some lat, some lon => some (lat, lon)
      | _, _ => none
    | none => none

/-- server.py lines 399-434, for one element: either the poi dictionary
or none when the element is skipped.  uuid.uuid4() for an element with
no id is modelled by a fixed placeholder string; no property below
depends on it. -/
def normalizeElement (origin : GeoPoint) (amenity : String) (e : OsmElement) :
    Option LocationResult :=
  (elemCoord e).map fun p =>
    { id := (e.id.map toString).getD "generated-uuid"
      name := (e.tags.lookup "name").getD
        (pyTitle amenity ++ " " ++ (e.id.map toString).getD "")
      type := amenity
      lat := p.1
      lng := p.2
      distance := some (sqrt111Round2 ((p.1 - origin.lat) ^ 2 + (p.2 - origin.lng) ^ 2))
      address := [("road", e.tags.lookup "addr:street"),
                  ("city", e.tags.lookup "addr:city"),
                  ("country", e.tags.lookup "addr:country")]
      details := [("website", e.tags.lookup "website"),
                  ("phone", e.tags.lookup "phone"),
                  ("opening_hours", e.tags.lookup "opening_hours")] }

/-- The per-element loop of server.py lines 398-434: skipped elements
are dropped, the rest are normalized in order. -/
def normalizeBatch (origin : GeoPoint) (amenity : String) (es : List OsmElement) :
    List LocationResult :=
  es.filterMap (normalizeElement origin amenity)

/- Ranking, server.py lines 438-439. -/

/-- The sort key of line 438: x.get("distance", float("inf")) — a
missing distance compares above every real distance. -/
def distKey (r : LocationResult) : WithTop ℚ :=
  match r.distance with
  | some d => (d : WithTop ℚ)
  | none => ⊤

/-- Boolean comparison used by the (stable) sort on line 438. -/
def distLE (a b : LocationResult) : Bool := decide (distKey a ≤ distKey b)

/-- server.py lines 438-439: pois.sort(key=...) then pois[:limit].
Python's list.sort is a stable comparison sort, modelled by the stable
mergeSort. -/
def rank (pois : List LocationResult) (limit : ℕ) : List LocationResult :=
  (pois.mergeSort distLE).take limit

/-- Sorted by non-decreasing distance, missing distances last. -/
abbrev sortedByDist (l : List LocationResult) : Prop :=
  l.Pairwise (fun a b => distKey a ≤ distKey b)

/- Effect traces of the request handlers.  Each handler's body performs
its externally visible actions in a fixed program order; the list below
records that order, with the branches of the handler as parameters. -/

inductive Effect where
  | rateCheck
  | outboundCall
  | dbWrite
  | dbRead
  | reject
  | fail
  | respond
deriving DecidableEq

/-- geocode, server.py lines 289-343: outbound Nominatim call, an
optional background history write, then the response.  No
check_rate_limit call appears in the handler. -/
def geocodeEffects (dbConnected : Bool) : List Effect :=
  [Effect.outboundCall] ++ (if dbConnected then [Effect.dbWrite] else [])
    ++ [Effect.respond]

/-- reverse_geocode, server.py lines 345-372: outbound call, response. -/
def reverseGeocodeEffects : List Effect :=
  [Effect.outboundCall, Effect.respond]

/-- nearby_search, server.py lines 374-445: outbound Overpass call,
response.  No check_rate_limit call appears in the handler. -/
def nearbyEffects : List Effect :=
  [Effect.outboundCall, Effect.respond]

/-- sync_searches, server.py lines 463-496: with the database down the
request is answered as queued; otherwise check_rate_limit runs first
and a denied identity receives 429 with nothing else happening. -/
def syncSearchesEffects (dbConnected : Bool) (items : ℕ) (admitted : Bool) :
    List Effect :=
  if dbConnected then
    Effect.rateCheck ::
      (if admitted then List.replicate items Effect.dbWrite ++ [Effect.respond]
       else [Effect.reject])
  else [Effect.respond]

/-- sync_markers, server.py lines 498-529: database down gives 503;
otherwise check_rate_limit runs first, as in sync_searches. -/
def syncMarkersEffects (dbConnected : Bool) (items : ℕ) (admitted : Bool) :
    List Effect :=
  if dbConnected then
    Effect.rateCheck ::
      (if admitted then List.replicate items Effect.dbWrite ++ [Effect.respond]
       else [Effect.reject])
  else [Effect.fail]

/-- get_offline_data, server.py lines 531-574: check_rate_limit runs
first; an admitted request optionally reads recent searches and
responds, a denied one receives 429. -/
def offlineDataEffects (dbConnected admitted : Bool) : List Effect :=
  Effect.rateCheck ::
    (if admitted then (if dbConnected then [Effect.dbRead] else []) ++ [Effect.respond]
     else [Effect.reject])

/-- Every outbound call in the trace is preceded by a rate-limit
admission check (the guard the specification asserts for the
outbound-call endpoints). -/
abbrev rateCheckedBeforeOutbound (t : List Effect) : Prop :=
  ∀ j : Fin t.length, t.get j = Effect.outboundCall →
    ∃ i : Fin t.length, i.val < j.val ∧ t.get i = Effect.rateCheck

/- Definitions taken from the specification's words, for comparison
with the code. -/

/-- Haversine great-circle distance with Earth radius 6371 km, as the
specification describes it (inputs in degrees). -/
noncomputable def haversineKm (lat1 lon1 lat2 lon2 : ℚ) : ℝ :=
  2 * 6371 * Real.arcsin (Real.sqrt (
    Real.sin ((((lat2 : ℝ) - (lat1 : ℝ)) * Real.pi / 180) / 2) ^ 2
    + Real.cos ((lat1 : ℝ) * Real.pi / 180) * Real.cos ((lat2 : ℝ) * Real.pi / 180)
      * Real.sin ((((lon2 : ℝ) - (lon1 : ℝ)) * Real.pi / 180) / 2) ^ 2))

/-- The haversine distance rounded to 2 decimal places, as the
specification says the stored distance is. -/
noncomputable def haversineRound2 (lat1 lon1 lat2 lon2 : ℚ) : ℚ :=
  ((round ((100 : ℝ) * haversineKm lat1 lon1 lat2 lon2) : ℤ) : ℚ) / 100

/-- From the specification's words: the element carries a direct
coordinate pair. -/
def hasDirectCoord (e : OsmElement) : Bool := e.lat.isSome && e.lon.isSome

/-- From the specification's words: the element carries a center
coordinate. -/
def hasCenterCoord (e : OsmElement) : Bool :=
  match e.center with
  | some c => c.lat.isSome && c.lon.isSome
  | none => false

/-- From the specification's words: address fragments are exactly the
tags keyed with an addr: prefix, with the prefix stripped (written on
character lists so concrete inputs evaluate inside the kernel). -/
def specAddressFragments (tags : List (String × String)) : List (String × String) :=
  tags.filterMap fun kv =>
    if List.isPrefixOf (['a', 'd', 'd', 'r', ':'] : List Char) kv.1.data then
      some (⟨kv.1.data.drop 5⟩, kv.2)
    else none

/-- Which elements the per-element loop keeps: a node needs its own
coordinate pair, any other element needs a complete center. -/
def keptElem (e : OsmElement) : Bool :=
  if e.type = "node" then hasDirectCoord e else hasCenterCoord e

/- Concrete inputs used by the counterexamples and witnesses. -/

/-- A node on the equator at longitude 1. -/
def elemEquator : OsmElement := ⟨"node", some 1, some 0, some 1, none, []⟩

/-- A node that coincides with the origin used alongside it. -/
def elemSelf : OsmElement := ⟨"node", some 7, some 3, some 4, none, []⟩

/-- A node that carries a center but no coordinate of its own. -/
def elemNodeCenterOnly : OsmElement :=
  ⟨"node", some 2, none, none, some ⟨some 1, some 2⟩, []⟩

/-- An element with a name tag. -/
def elemNamed : OsmElement :=
  ⟨"node", some 3, some 0, some 0, none, [("name", "Chai Point")]⟩

/-- An element without a name tag. -/
def elemUnnamed : OsmElement := ⟨"node", some 5, some 0, some 1, none, []⟩

/-- An element with address tags, among them one outside the fixed
street/city/country triple. -/
def elemAddr : OsmElement :=
  ⟨"node", some 4, some 0, some 0, none,
   [("addr:postcode", "110001"), ("addr:street", "MG Road")]⟩

/-- Two already-ranked results, used to exercise idempotence. -/
def poiNear : LocationResult :=
  ⟨"1", "A", "cafe", 0, 0, some 1, [], []⟩

def poiFar : LocationResult :=
  ⟨"2", "B", "cafe", 0, 0, some 2, [], []⟩

/- Theorems.  Helper lemmas come first, the claim theorems follow. -/

theorem runCalls_const_window (R : ℚ) (ts : List ℚ) :
    ∀ k : ℕ, (∀ t ∈ ts, t ≤ R) →
      runCalls ts (some ⟨k, R⟩)
        = (List.range ts.length).map (fun i => decide (k + i < RATE_LIMIT_CALLS)) := by
  induction ts with
  | nil => intro k _; rfl
  | cons t ts ih =>
    intro k h
    have ht : ¬ t > R := not_lt.mpr (h t (List.mem_cons_self t ts))
    have hrest : ∀ u ∈ ts, u ≤ R := fun u hu => h u (List.mem_cons_of_mem t hu)
    by_cases hk : k ≥ RATE_LIMIT_CALLS
    · simp only [runCalls, check_rate_limit, if_neg ht, if_pos hk]
      rw [ih k hrest, List.length_cons, List.range_succ_eq_map, List.map_cons,
        List.map_map]
      refine congrArg₂ List.cons ?_ (List.map_congr_left fun i _ => ?_)
      · simp only [RATE_LIMIT_CALLS] at hk ⊢
        rw [decide_eq_false (by omega)]
      · exact decide_eq_decide.mpr (by omega)
    · simp only [runCalls, check_rate_limit, if_neg ht, if_neg hk]
      rw [ih (k + 1) hrest, List.length_cons, List.range_succ_eq_map, List.map_cons,
        List.map_map]
      refine congrArg₂ List.cons ?_ (List.map_congr_left fun i _ => ?_)
      · simp only [RATE_LIMIT_CALLS] at hk ⊢
        rw [decide_eq_true (by omega)]
      · exact decide_eq_decide.mpr (by omega)

/-- C3: for a fresh client identity, with no window rollover between the
calls, check_rate_limit admits each of the first 100 calls and rejects
the 101st and every later call: the i-th call (counting from 0) is
admitted exactly when i < RATE_LIMIT_CALLS. -/
theorem rate_limit_first_hundred (t0 : ℚ) (ts : List ℚ)
    (h : ∀ t ∈ ts, t ≤ t0 + RATE_LIMIT_PERIOD) :
    runCalls (t0 :: ts) none
      = (List.range (ts.length + 1)).map (fun i => decide (i < RATE_LIMIT_CALLS)) := by
  simp only [runCalls, check_rate_limit]
  rw [runCalls_const_window (t0 + RATE_LIMIT_PERIOD) ts 1 h,
    List.range_succ_eq_map, List.map_cons, List.map_map]
  refine congrArg₂ List.cons rfl (List.map_congr_left fun i _ => ?_)
  exact decide_eq_decide.mpr (by omega)

theorem rate_limit_first_hundred_witness :
    (∀ t ∈ List.replicate 101 (0 : ℚ), t ≤ 0 + RATE_LIMIT_PERIOD)
    ∧ runCalls ((0 : ℚ) :: List.replicate 101 0) none
        = (List.range ((List.replicate 101 (0 : ℚ)).length + 1)).map
            (fun i => decide (i < RATE_LIMIT_CALLS)) :=
  ⟨by decide, rate_limit_first_hundred 0 (List.replicate 101 0) (by decide)⟩

/-- C10: whenever check_rate_limit rejects a call, the stored entry for
that identity (count and window-reset time) is returned unchanged, so a
rejected request consumes no quota and does not move the window. -/
theorem rate_limit_reject_preserves_state (now : ℚ) (st : Option RateEntry)
    (h : (check_rate_limit now st).1 = false) :
    (check_rate_limit now st).2 = st := by
  match st with
  | none => simp [check_rate_limit] at h
  | some c =>
    simp only [check_rate_limit] at h ⊢
    split_ifs at h ⊢
    all_goals simp_all

theorem rate_limit_reject_preserves_state_witness :
    (check_rate_limit 0 (some ⟨100, 3600⟩)).1 = false
    ∧ (check_rate_limit 0 (some ⟨100, 3600⟩)).2 = some ⟨100, 3600⟩ :=
  ⟨by decide, rate_limit_reject_preserves_state 0 (some ⟨100, 3600⟩) (by decide)⟩

/-- C7: convert_query_to_amenity returns the mapped tag whenever the
lower-cased, stripped input is a key of the fixed table, and otherwise
returns the lower-cased, stripped input unchanged; in particular
"  Petrol " resolves to "fuel". -/
theorem convert_query_table_or_passthrough :
    (∀ q v, amenityMapping.lookup (pyStrip (pyLower q)) = some v →
        convert_query_to_amenity q = v)
    ∧ (∀ q, amenityMapping.lookup (pyStrip (pyLower q)) = none →
        convert_query_to_amenity q = pyStrip (pyLower q))
    ∧ convert_query_to_amenity "  Petrol " = "fuel" := by
  refine ⟨fun q v h => ?_, fun q h => ?_, by decide⟩
  · simp [convert_query_to_amenity, h]
  · simp [convert_query_to_amenity, h]

theorem convert_query_table_or_passthrough_witness :
    amenityMapping.lookup (pyStrip (pyLower "  Petrol ")) = some "fuel"
    ∧ convert_query_to_amenity "  Petrol " = "fuel" :=
  ⟨by decide, convert_query_table_or_passthrough.1 "  Petrol " "fuel" (by decide)⟩

/-- C2 (counterexample): the nearby-search handler performs its outbound
Overpass call with no rate-limit admission check anywhere before it, so
the claimed guard on the outbound-call endpoints fails. -/
theorem nearby_outbound_unguarded : ¬ rateCheckedBeforeOutbound nearbyEffects := by
  decide

/-- C2 (amended): check_rate_limit is not called on the outbound-call
endpoints — geocode, reverse-geocode and nearby-search each make their
outbound call with no admission check — while the sync-searches,
sync-markers (database up) and offline-data endpoints run the admission
check first and reject a non-admitted identity with no further
effects; none of the rate-checked endpoints makes an outbound call. -/
theorem rate_limit_gate_placement :
    (∀ db, Effect.rateCheck ∉ geocodeEffects db ∧ Effect.outboundCall ∈ geocodeEffects db)
    ∧ (Effect.rateCheck ∉ reverseGeocodeEffects ∧ Effect.outboundCall ∈ reverseGeocodeEffects)
    ∧ (Effect.rateCheck ∉ nearbyEffects ∧ Effect.outboundCall ∈ nearbyEffects)
    ∧ (∀ n, syncSearchesEffects true n false = [Effect.rateCheck, Effect.reject])
    ∧ (∀ n, syncMarkersEffects true n false = [Effect.rateCheck, Effect.reject])
    ∧ (∀ db, offlineDataEffects db false = [Effect.rateCheck, Effect.reject])
    ∧ (∀ db n adm, Effect.outboundCall ∉ syncSearchesEffects db n adm
        ∧ Effect.outboundCall ∉ syncMarkersEffects db n adm)
    ∧ (∀ db adm, Effect.outboundCall ∉ offlineDataEffects db adm) := by
  refine ⟨fun db => ?_, ⟨by decide, by decide⟩, ⟨by decide, by decide⟩,
    fun n => rfl, fun n => rfl, fun db => ?_, fun db n adm => ?_, fun db adm => ?_⟩
  · cases db <;> exact ⟨by decide, by decide⟩
  · cases db <;> rfl
  · constructor <;>
      · cases db <;> cases adm <;>
          simp [syncSearchesEffects, syncMarkersEffects, List.mem_replicate]
  · cases db <;> cases adm <;> simp [offlineDataEffects]

/-- C6 (counterexample): for an element with no name tag, the code
synthesizes "Cafe 5" — category title, a space, the identifier — not
the claimed "<Category Title> #<identifier>" form "Cafe #5". -/
theorem nearby_name_fallback_differs :
    (normalizeElement ⟨0, 0⟩ "cafe" elemUnnamed).map LocationResult.name = some "Cafe 5"
    ∧ elemUnnamed.tags.lookup "name" = none
    ∧ pyTitle "cafe" ++ " #" ++ "5" = "Cafe #5"
    ∧ ("Cafe 5" : String) ≠ "Cafe #5" :=
  ⟨by decide, rfl, by decide, by decide⟩

/-- C6 (amended): the display name is the element's explicit tagged name
when present, and otherwise the synthesized string
"<Category Title> <identifier>" (title-cased category, a space, the
identifier — no "#", and no separate upstream display-name step exists
in this path, since the handler reads only the element's tags). -/
theorem nearby_name_resolution :
    (∀ o a e r n, normalizeElement o a e = some r →
        e.tags.lookup "name" = some n → r.name = n)
    ∧ (∀ o a e r, normalizeElement o a e = some r →
        e.tags.lookup "name" = none →
        r.name = pyTitle a ++ " " ++ (e.id.map toString).getD "") := by
  constructor
  · intro o a e r n h hn
    rcases Option.map_eq_some'.mp h with ⟨p, hp, rfl⟩
    simp [hn]
  · intro o a e r h hn
    rcases Option.map_eq_some'.mp h with ⟨p, hp, rfl⟩
    simp [hn]

theorem nearby_name_resolution_witness :
    elemNamed.tags.lookup "name" = some "Chai Point"
    ∧ (normalizeElement ⟨0, 0⟩ "cafe" elemNamed).map LocationResult.name
        = some "Chai Point" := by
  have h : normalizeElement ⟨0, 0⟩ "cafe" elemNamed
      = some { id := "3", name := "Chai Point", type := "cafe", lat := 0, lng := 0,
               distance := some 0,
               address := [("road", none), ("city", none), ("country", none)],
               details := [("website", none), ("phone", none),
                           ("opening_hours", none)] } := by decide
  have hn := nearby_name_resolution.1 ⟨0, 0⟩ "cafe" elemNamed _ "Chai Point" h rfl
  exact ⟨rfl, (congrArg (Option.map LocationResult.name) h).trans (congrArg some hn)⟩

/-- C8 (counterexample): the tag addr:street is not surfaced under the
stripped key "street" (the code renames it to "road"), and a tag such
as addr:postcode is dropped entirely, so the address fragments are not
the addr:-prefixed tags with the prefix stripped. -/
theorem nearby_address_not_stripped_tags :
    (normalizeElement ⟨0, 0⟩ "cafe" elemAddr).map (fun r => r.address.lookup "street")
      = some none
    ∧ (specAddressFragments elemAddr.tags).lookup "street" = some "MG Road"
    ∧ (normalizeElement ⟨0, 0⟩ "cafe" elemAddr).map (fun r => r.address.lookup "postcode")
      = some none
    ∧ (specAddressFragments elemAddr.tags).lookup "postcode" = some "110001" :=
  ⟨by decide, by decide, by decide, by decide⟩

/-- C8 (amended): the address of every retained element is the fixed
triple road/city/country taken from the tags addr:street, addr:city and
addr:country (absent values included as None); other addr:-prefixed
tags are not included, and the keys are renamed rather than
prefix-stripped. -/
theorem nearby_address_fixed_triple (o : GeoPoint) (a : String) (e : OsmElement)
    (r : LocationResult) (h : normalizeElement o a e = some r) :
    r.address = [("road", e.tags.lookup "addr:street"),
                 ("city", e.tags.lookup "addr:city"),
                 ("country", e.tags.lookup "addr:country")] := by
  rcases Option.map_eq_some'.mp h with ⟨p, hp, rfl⟩
  rfl

theorem nearby_address_fixed_triple_witness :
    (normalizeElement ⟨0, 0⟩ "cafe" elemAddr).map LocationResult.address
      = some [("road", some "MG Road"), ("city", none), ("country", none)] := by
  have h : normalizeElement ⟨0, 0⟩ "cafe" elemAddr
      = some { id := "4", name := "Cafe 4", type := "cafe", lat := 0, lng := 0,
               distance := some 0,
               address := [("road", some "MG Road"), ("city", none), ("country", none)],
               details := [("website", none), ("phone", none),
                           ("opening_hours", none)] } := by decide
  have h2 : [("road", elemAddr.tags.lookup "addr:street"),
      ("city", elemAddr.tags.lookup "addr:city"),
      ("country", elemAddr.tags.lookup "addr:country")]
      = [("road", some "MG Road"), ("city", none), ("country", none)] := by decide
  have ha := (nearby_address_fixed_triple ⟨0, 0⟩ "cafe" elemAddr _ h).trans h2
  exact (congrArg (Option.map LocationResult.address) h).trans (congrArg some ha)

theorem elemCoord_isSome (e : OsmElement) : (elemCoord e).isSome = keptElem e := by
  unfold elemCoord keptElem hasDirectCoord hasCenterCoord
  split
  · cases e.lat <;> cases e.lon <;> simp
  · match e.center with
    | none => simp
    | some c =>
      obtain ⟨cl, cn⟩ := c
      cases cl <;> cases cn <;> simp

theorem normalizeElement_isSome (o : GeoPoint) (a : String) (e : OsmElement) :
    (normalizeElement o a e).isSome = keptElem e := by
  rw [normalizeElement, Option.isSome_map', elemCoord_isSome]

/-- C4 (counterexample): a node element that has a complete center but
no coordinate pair of its own is skipped, although it does not lack
"both a direct coordinate and a center"; the batch therefore shrinks by
one while the number of such elements is zero. -/
theorem skipped_node_with_center :
    (normalizeBatch ⟨0, 0⟩ "cafe" [elemNodeCenterOnly]).length = 0
    ∧ ([elemNodeCenterOnly].countP
        (fun e => !hasDirectCoord e && !hasCenterCoord e)) = 0
    ∧ ([elemNodeCenterOnly] : List OsmElement).length - 0 = 1 :=
  ⟨by decide, by decide, by decide⟩

/-- C4 (amended): a node element uses its own lat/lon and is skipped
exactly when that pair is incomplete (even if a center is present); any
other element uses its center and is skipped exactly when no complete
center is present; skipping never aborts the batch — the output length
is the number of kept elements. -/
theorem normalize_batch_skip_rule :
    (∀ o a es, (normalizeBatch o a es).length = es.countP keptElem)
    ∧ (∀ o a e la lo, e.type = "node" → e.lat = some la → e.lon = some lo →
        (normalizeElement o a e).map (fun r => (r.lat, r.lng)) = some (la, lo))
    ∧ (∀ o a e c la lo, e.type ≠ "node" → e.center = some c → c.lat = some la →
        c.lon = some lo →
        (normalizeElement o a e).map (fun r => (r.lat, r.lng)) = some (la, lo)) := by
  refine ⟨fun o a es => ?_, fun o a e la lo hty hla hlo => ?_,
    fun o a e c la lo hty hc hla hlo => ?_⟩
  · induction es with
    | nil => rfl
    | cons e es ih =>
      have hk := normalizeElement_isSome o a e
      simp only [normalizeBatch, List.filterMap_cons, List.countP_cons] at *
      cases h : normalizeElement o a e with
      | none =>
        rw [h] at hk
        simp only [Option.isSome_none] at hk
        rw [ih, ← hk]
        simp
      | some r =>
        rw [h] at hk
        simp only [Option.isSome_some] at hk
        rw [List.length_cons, ih, ← hk]
        simp
  · simp [normalizeElement, elemCoord, hty, hla, hlo]
  · simp [normalizeElement, elemCoord, hty, hc, hla, hlo]

theorem normalize_batch_skip_rule_witness :
    elemEquator.type = "node" ∧ elemEquator.lat = some 0 ∧ elemEquator.lon = some 1
    ∧ (normalizeElement ⟨0, 0⟩ "cafe" elemEquator).map (fun r => (r.lat, r.lng))
        = some (0, 1) :=
  ⟨rfl, rfl, rfl, normalize_batch_skip_rule.2.1 ⟨0, 0⟩ "cafe" elemEquator 0 1 rfl rfl rfl⟩

theorem distKey_eq_top_iff (r : LocationResult) : distKey r = ⊤ ↔ r.distance = none := by
  unfold distKey
  cases r.distance <;> simp

/-- C5: ranking sorts the whole list of normalized results by
non-decreasing distance (missing distances last) and only then
truncates to the limit: the returned list is a prefix of a sorted
permutation of the input, has length at most the limit, is itself
sorted, and places every unknown-distance entry after all known
ones. -/
theorem rank_sorts_then_truncates (pois : List LocationResult) (limit : ℕ) :
    ∃ s, s.Perm pois ∧ sortedByDist s ∧ rank pois limit = s.take limit
      ∧ (rank pois limit).length ≤ limit
      ∧ sortedByDist (rank pois limit)
      ∧ (rank pois limit).Pairwise (fun a b => a.distance = none → b.distance = none) := by
  have htrans : ∀ a b c : LocationResult, distLE a b → distLE b c → distLE a c := by
    intro a b c hab hbc
    simp only [distLE, decide_eq_true_eq] at *
    exact le_trans hab hbc
  have htotal : ∀ a b : LocationResult, distLE a b || distLE b a := by
    intro a b
    simp only [distLE, Bool.or_eq_true, decide_eq_true_eq]
    exact le_total _ _
  have hsort : (pois.mergeSort distLE).Pairwise (fun a b => distLE a b) :=
    List.sorted_mergeSort htrans htotal pois
  have hsorted : sortedByDist (pois.mergeSort distLE) :=
    hsort.imp fun h => by simpa [distLE] using h
  have hrank : sortedByDist (rank pois limit) :=
    hsorted.sublist (List.take_sublist limit _)
  refine ⟨pois.mergeSort distLE, List.mergeSort_perm pois distLE, hsorted, rfl,
    ?_, hrank, ?_⟩
  · simp [rank, List.length_take]
  · refine hrank.imp fun {a b} hab ha => ?_
    have : distKey b = ⊤ := top_le_iff.mp (((distKey_eq_top_iff a).mpr ha) ▸ hab)
    exact (distKey_eq_top_iff b).mp this

/-- C9: ranking is idempotent — applying the ranking stage to a list
that is already sorted by non-decreasing distance and already within
the limit returns the list unchanged. -/
theorem rank_idempotent (l : List LocationResult) (limit : ℕ)
    (hs : sortedByDist l) (hl : l.length ≤ limit) : rank l limit = l := by
  have hp : l.Pairwise (fun a b => distLE a b) :=
    hs.imp fun h => by simpa [distLE] using h
  rw [rank, List.mergeSort_of_sorted hp, List.take_of_length_le hl]

theorem rank_idempotent_witness :
    sortedByDist [poiNear, poiFar]
    ∧ ([poiNear, poiFar] : List LocationResult).length ≤ 5
    ∧ rank [poiNear, poiFar] 5 = [poiNear, poiFar] :=
  ⟨by decide, by decide, rank_idempotent [poiNear, poiFar] 5 (by decide) (by decide)⟩

theorem isqrtAux_spec : ∀ fuel n : ℕ, n ≤ fuel →
    (isqrtAux fuel n) ^ 2 ≤ n ∧ n < (isqrtAux fuel n + 1) ^ 2 := by
  intro fuel
  induction fuel with
  | zero =>
    intro n hn
    have hz : n = 0 := Nat.le_zero.mp hn
    subst hz
    simp [isqrtAux]
  | succ fuel ih =>
    intro n hn
    by_cases h0 : n = 0
    · subst h0; simp [isqrtAux]
    · have hrec := ih (n / 4) (by omega)
      simp only [isqrtAux, if_neg h0]
      set r := isqrtAux fuel (n / 4) with hr
      have hmod := Nat.div_add_mod n 4
      have hlt : n % 4 < 4 := Nat.mod_lt n (by norm_num)
      by_cases hc : (2 * r + 1) ^ 2 ≤ n
      · simp only [if_pos hc]
        refine ⟨hc, ?_⟩
        have h4 : n / 4 < (r + 1) ^ 2 := hrec.2
        have hexp : (2 * r + 1 + 1) ^ 2 = 4 * ((r + 1) ^ 2) := by ring
        rw [hexp]
        generalize (r + 1) ^ 2 = A at h4 ⊢
        omega
      · simp only [if_neg hc]
        constructor
        · have h1 : r ^ 2 ≤ n / 4 := hrec.1
          have hexp : (2 * r) ^ 2 = 4 * (r ^ 2) := by ring
          rw [hexp]
          generalize r ^ 2 = B at h1 ⊢
          omega
        · exact not_le.mp hc

theorem isqrt_spec (n : ℕ) : (isqrt n) ^ 2 ≤ n ∧ n < (isqrt n + 1) ^ 2 :=
  isqrtAux_spec n n le_rfl

theorem floor_sqrt_isqrt (m : ℕ) : ⌊Real.sqrt (m : ℝ)⌋₊ = isqrt m := by
  have h := isqrt_spec m
  rw [Nat.floor_eq_iff (Real.sqrt_nonneg _)]
  constructor
  · rw [Real.le_sqrt (by positivity) (by positivity)]
    exact_mod_cast h.1
  · have hlt : Real.sqrt (m : ℝ) < ((isqrt m + 1 : ℕ) : ℝ) := by
      rw [Real.sqrt_lt' (by positivity)]
      exact_mod_cast h.2
    push_cast at hlt ⊢
    linarith

theorem sqrt111Round2_eq_round (q : ℚ) (hq : 0 ≤ q) :
    sqrt111Round2 q = ((round ((11100 : ℝ) * Real.sqrt (q : ℝ)) : ℤ) : ℚ) / 100 := by
  have hd : (0 : ℝ) < (q.den : ℝ) := by exact_mod_cast q.den_pos
  have htn : ((q.num.toNat : ℕ) : ℤ) = q.num := Int.toNat_of_nonneg (Rat.num_nonneg.mpr hq)
  have hqr : (q : ℝ) = ((q.num.toNat : ℕ) : ℝ) / (q.den : ℝ) := by
    rw [Rat.cast_def]
    congr 1
    exact_mod_cast htn.symm
  have hM : ((492840000 * q.num.toNat * q.den : ℕ) : ℝ)
      = ((22200 : ℝ) * (q.den : ℝ)) ^ 2 * (q : ℝ) := by
    push_cast
    rw [hqr]
    field_simp
    ring
  have hsq : Real.sqrt ((492840000 * q.num.toNat * q.den : ℕ) : ℝ)
      = 22200 * (q.den : ℝ) * Real.sqrt (q : ℝ) := by
    rw [hM, Real.sqrt_mul (by positivity), Real.sqrt_sq (by positivity)]
  have hx : (11100 : ℝ) * Real.sqrt (q : ℝ) + 1 / 2
      = (Real.sqrt ((492840000 * q.num.toNat * q.den : ℕ) : ℝ) + ((q.den : ℕ) : ℝ))
        / ((2 * q.den : ℕ) : ℝ) := by
    rw [hsq]
    have h2d : ((2 * q.den : ℕ) : ℝ) = 2 * (q.den : ℝ) := by push_cast; ring
    rw [h2d]
    field_simp
    ring
  have hfl : ⌊(11100 : ℝ) * Real.sqrt (q : ℝ) + 1 / 2⌋
      = (((isqrt (492840000 * q.num.toNat * q.den) + q.den) / (2 * q.den) : ℕ) : ℤ) := by
    rw [hx, ← Int.natCast_floor_eq_floor (by positivity)]
    congr 1
    rw [Nat.floor_div_nat, Nat.floor_add_nat (Real.sqrt_nonneg _), floor_sqrt_isqrt]
  rw [round_eq, hfl]
  unfold sqrt111Round2
  rw [Int.cast_natCast]

theorem normalizeElement_distance (o : GeoPoint) (a : String) (e : OsmElement)
    (r : LocationResult) (h : normalizeElement o a e = some r) :
    r.distance = some (sqrt111Round2 ((r.lat - o.lat) ^ 2 + (r.lng - o.lng) ^ 2)) := by
  rcases Option.map_eq_some'.mp h with ⟨p, hp, rfl⟩
  rfl

theorem haversine_equator_one_degree :
    (100 : ℝ) * haversineKm 0 0 0 1 = 31855 * Real.pi / 9 := by
  have h0 : (0 : ℝ) ≤ Real.pi / 360 := by positivity
  have h2 : Real.pi / 360 ≤ Real.pi / 2 := by linarith [Real.pi_pos]
  have hp : Real.pi / 360 ≤ Real.pi := by linarith [Real.pi_pos]
  have hs : (0 : ℝ) ≤ Real.sin (Real.pi / 360) :=
    Real.sin_nonneg_of_nonneg_of_le_pi h0 hp
  unfold haversineKm
  rw [show ((0 : ℚ) : ℝ) = 0 by norm_num, show ((1 : ℚ) : ℝ) = 1 by norm_num]
  rw [show ((0 : ℝ) - 0) * Real.pi / 180 / 2 = 0 by ring,
    show (0 : ℝ) * Real.pi / 180 = 0 by ring,
    show ((1 : ℝ) - 0) * Real.pi / 180 / 2 = Real.pi / 360 by ring]
  rw [Real.sin_zero, Real.cos_zero]
  rw [show (0 : ℝ) ^ 2 + 1 * 1 * Real.sin (Real.pi / 360) ^ 2
      = Real.sin (Real.pi / 360) ^ 2 by ring]
  rw [Real.sqrt_sq hs, Real.arcsin_sin (by linarith) h2]
  ring

theorem haversineRound2_equator : haversineRound2 0 0 0 1 = 11119 / 100 := by
  unfold haversineRound2
  rw [haversine_equator_one_degree, round_eq]
  have h1 := Real.pi_gt_d6
  have h2 := Real.pi_lt_d6
  have hfl : ⌊(31855 : ℝ) * Real.pi / 9 + 1 / 2⌋ = 11119 := by
    rw [Int.floor_eq_iff]
    constructor
    · push_cast
      nlinarith
    · push_cast
      nlinarith
  rw [hfl]
  norm_num

/-- C1 (counterexample): for origin (0,0) and a retained node at (0,1),
the code stores distance 111.00 (planar sqrt((dlat)^2+(dlon)^2)*111,
rounded), while the haversine great-circle distance with Earth radius
6371 km rounds to 111.19; the two differ, so the stored distance is not
the rounded haversine distance. -/
theorem nearby_distance_not_haversine :
    (normalizeElement ⟨0, 0⟩ "restaurant" elemEquator).map LocationResult.distance
      = some (some 111)
    ∧ haversineRound2 0 0 0 1 = 11119 / 100
    ∧ (111 : ℚ) ≠ 11119 / 100 :=
  ⟨by decide, haversineRound2_equator, by norm_num⟩

/-- C1 (amended): for every retained element, the stored distance is
the planar approximation sqrt((lat-olat)^2+(lng-olng)^2) * 111 km,
rounded to 2 decimal places — not the haversine great-circle distance;
the distance from a point to itself is 0.0, and the distance stored for
(0,0) to (0,1) is 111.0, which is within 1% of the haversine value
111.19. -/
theorem nearby_distance_planar :
    (∀ o a e r, normalizeElement o a e = some r →
        r.distance = some (((round ((11100 : ℝ)
          * Real.sqrt (((r.lat - o.lat) ^ 2 + (r.lng - o.lng) ^ 2 : ℚ) : ℝ)) : ℤ) : ℚ)
            / 100))
    ∧ (∀ o a e, e.type = "node" → e.lat = some o.lat → e.lon = some o.lng →
        (normalizeElement o a e).map LocationResult.distance = some (some 0))
    ∧ sqrt111Round2 ((0 - 0 : ℚ) ^ 2 + (1 - 0 : ℚ) ^ 2) = 111
    ∧ |(111 : ℚ) - 11119 / 100| ≤ (11119 / 100) / 100 := by
  refine ⟨fun o a e r h => ?_, fun o a e hty hla hlo => ?_, by decide, ?_⟩
  · rw [normalizeElement_distance o a e r h,
      sqrt111Round2_eq_round _ (by positivity)]
  · simp only [normalizeElement, elemCoord, hty, if_pos, hla, hlo, Option.map_some']
    have hz : ((o.lat - o.lat) ^ 2 + (o.lng - o.lng) ^ 2 : ℚ) = 0 := by ring
    rw [hz]
    rfl
  · rw [abs_le]
    constructor <;> norm_num

theorem nearby_distance_planar_witness :
    elemSelf.type = "node" ∧ elemSelf.lat = some ((3 : ℚ))
    ∧ elemSelf.lon = some ((4 : ℚ))
    ∧ (normalizeElement ⟨3, 4⟩ "cafe" elemSelf).map LocationResult.distance
        = some (some 0) :=
  ⟨rfl, rfl, rfl, nearby_distance_planar.2.1 ⟨3, 4⟩ "cafe" elemSelf rfl rfl rfl⟩
